import Mathlib

/-!
# Verification of the py-theta-client request planner and pipeline

Shallow embedding of the core of the `theta_client` package:
the request planner (`requests.py`), the per-file completion latch
(`job.py`), the fetch stage (`http_worker.py`), the finalize stage
(`file_writer.py`) and the coordinator (`client.py`).  Network and
object-store effects are modelled as explicit inputs (the trading-day
calendar list, the existence predicate); everything else is translated
directly from the Python source.
-/

set_option maxRecDepth 8192

namespace ThetaClientModel

/-! ## Enumerations (requests.py) -/

/-- `Interval` enum from requests.py. -/
inductive Interval
  | tick | ms10 | ms100 | ms500 | s1 | s5 | s15 | s30 | m1 | m5 | m15 | m30 | h1
deriving DecidableEq

/-- `Interval.value` — the `.value` attribute of each member. -/
def Interval.value : Interval → String
  | .tick => "tick"
  | .ms10 => "10ms"
  | .ms100 => "100ms"
  | .ms500 => "500ms"
  | .s1 => "1s"
  | .s5 => "5s"
  | .s15 => "15s"
  | .s30 => "30s"
  | .m1 => "1m"
  | .m5 => "5m"
  | .m15 => "15m"
  | .m30 => "30m"
  | .h1 => "1h"

/-- `str(Interval.X)` as produced by a Python f-string on a plain `Enum`
member: `"Interval.<MEMBER_NAME>"`, not the `.value` string. -/
def Interval.pyStr : Interval → String
  | .tick => "Interval.TICK"
  | .ms10 => "Interval.MS10"
  | .ms100 => "Interval.MS100"
  | .ms500 => "Interval.MS500"
  | .s1 => "Interval.S1"
  | .s5 => "Interval.S5"
  | .s15 => "Interval.S15"
  | .s30 => "Interval.S30"
  | .m1 => "Interval.M1"
  | .m5 => "Interval.M5"
  | .m15 => "Interval.M15"
  | .m30 => "Interval.M30"
  | .h1 => "Interval.H1"

/-- `AssetClass` enum from requests.py. -/
inductive AssetClass
  | stock | option
deriving DecidableEq

def AssetClass.value : AssetClass → String
  | .stock => "stock"
  | .option => "option"

/-- `DataType` enum from requests.py. -/
inductive DataType
  | history | snapshot
deriving DecidableEq

def DataType.value : DataType → String
  | .history => "history"
  | .snapshot => "snapshot"

/-- `Endpoint` enum from requests.py. -/
inductive Endpoint
  | eod | quote | trade | trade_quote | greeks_first_order | greeks_eod
deriving DecidableEq

def Endpoint.value : Endpoint → String
  | .eod => "eod"
  | .quote => "quote"
  | .trade => "trade"
  | .trade_quote => "trade_quote"
  | .greeks_first_order => "greeks/first_order"
  | .greeks_eod => "greeks/eod"

/-- `FileGranularity` enum from requests.py. -/
inductive FileGranularity
  | daily | monthly
deriving DecidableEq

def FileGranularity.value : FileGranularity → String
  | .daily => "daily"
  | .monthly => "monthly"

/-! ## FileWriteJob (job.py) -/

/-- `FileWriteJob` dataclass: per-output-file completion latch.
Tables are abstracted to `Nat` identifiers (pyarrow tables carry no
information relevant to the latch). -/
structure FileWriteJob where
  object_key : String
  total_items : Nat
  skipped_items : Bool := false
  completed_items : Nat := 0
  completed : Bool := false
  tables : List Nat := []
deriving DecidableEq

/-- Constructor used by the coordinator: only `object_key` and
`total_items` are supplied, everything else takes its default. -/
def FileWriteJob.init (key : String) (total : Nat) : FileWriteJob :=
  { object_key := key, total_items := total }

/-- `FileWriteJob._increment`. -/
def FileWriteJob.increment (s : FileWriteJob) : FileWriteJob :=
  let s := { s with completed_items := s.completed_items + 1 }
  if s.completed_items = s.total_items then { s with completed := true } else s

/-- `FileWriteJob.add_table`. -/
def FileWriteJob.add_table (s : FileWriteJob) (t : Nat) : FileWriteJob :=
  FileWriteJob.increment { s with tables := s.tables ++ [t] }

/-- `FileWriteJob.mark_item_skipped`. -/
def FileWriteJob.mark_item_skipped (s : FileWriteJob) : FileWriteJob :=
  FileWriteJob.increment { s with skipped_items := true }

/-- One invocation against the latch: either decode attached a table or
marked the item skipped. -/
inductive LatchOp
  | addTable (t : Nat)
  | markSkipped
deriving DecidableEq

/-- Apply one `LatchOp`. -/
def applyLatchOp (s : FileWriteJob) : LatchOp → FileWriteJob
  | .addTable t => s.add_table t
  | .markSkipped => s.mark_item_skipped

/-- Apply a sequence of latch operations in order. -/
def applyLatchOps (s : FileWriteJob) (ops : List LatchOp) : FileWriteJob :=
  ops.foldl applyLatchOp s

/-! ## Fetch stage (http_worker.py) -/

/-- Substring test on character lists, modelling Python's `in` operator
on strings. -/
def strContainsChars (hay needle : List Char) : Bool :=
  needle.isPrefixOf hay ||
    match hay with
    | [] => false
    | _ :: t => strContainsChars t needle

/-- `needle in hay` for Python strings. -/
def containsSubstr (needle hay : String) : Bool :=
  strContainsChars hay.data needle.data

/-- The upstream "no data" sentinel body substring (http_worker.py). -/
def NO_DATA_MESSAGE : String := "No data found for your request"

/-- An upstream HTTP response: status code and body (`response.text`
and `response.content` are both modelled by `body`). -/
structure HttpResponse where
  status : Nat
  body : String
deriving DecidableEq

/-- The fields of `Job` that the fetch stage reads and writes. -/
structure HttpJob where
  url : String
  csv_buffer : Option String
deriving DecidableEq

/-- `httpx` success predicate: `raise_for_status` raises exactly for
non-2xx responses. -/
def isSuccessStatus (s : Nat) : Bool :=
  decide (200 ≤ s) && decide (s < 300)

/-- Failure raised by the fetch stage (`response.raise_for_status()`). -/
inductive HttpFailure
  | statusError (url : String) (status : Nat)
deriving DecidableEq

/-- `HTTPWorker.process`: on the 472 sentinel with the known body
substring, return the job with `csv_buffer = None`; otherwise
`raise_for_status` (error on any non-success status); otherwise attach
the response bytes. -/
def HTTPWorker.process (job : HttpJob) (resp : HttpResponse) :
    Except HttpFailure HttpJob :=
  if resp.status = 472 ∧ containsSubstr NO_DATA_MESSAGE resp.body = true then
    .ok { job with csv_buffer := none }
  else if isSuccessStatus resp.status = true then
    .ok { job with csv_buffer := some resp.body }
  else
    .error (.statusError job.url resp.status)

/-! ## URL construction (requests.py) -/

def THETA_BASE_URL : String := "http://0.0.0.0:25503/v3"

/-- Characters `urllib.parse.quote(s, safe="*")` leaves unescaped: the
always-safe set (ASCII letters, digits, `_`, `.`, `-`, `~`) plus `*`. -/
def quoteSafe (c : Char) : Bool :=
  c.isAlpha || c.isDigit || c == '_' || c == '.' || c == '-' || c == '~' || c == '*'

/-- Uppercase hexadecimal digit, as `quote` emits. -/
def hexUpperDigit (n : Nat) : Char :=
  if n < 10 then Char.ofNat (48 + n) else Char.ofNat (55 + n)

/-- UTF-8 bytes of a character, as `Nat`s. -/
def utf8Bytes (c : Char) : List Nat :=
  let n := c.toNat
  if n < 128 then [n]
  else if n < 2048 then [192 + n / 64, 128 + n % 64]
  else if n < 65536 then [224 + n / 4096, 128 + n / 64 % 64, 128 + n % 64]
  else [240 + n / 262144, 128 + n / 4096 % 64, 128 + n / 64 % 64, 128 + n % 64]

/-- Percent-encode a single character as `quote(·, safe="*")` does. -/
def pctEncodeChar (c : Char) : List Char :=
  if quoteSafe c then [c]
  else (utf8Bytes c).flatMap fun b => ['%', hexUpperDigit (b / 16), hexUpperDigit (b % 16)]

/-- `quote_keep_star` from requests.py: `quote(s, safe="*")`. -/
def quote_keep_star (s : String) : String :=
  ⟨s.data.flatMap pctEncodeChar⟩

/-- `urllib.parse.urlencode(params, quote_via=quote_keep_star)`:
`&`-joined `key=value` pairs with both sides quoted, in dict order. -/
def urlencode : List (String × String) → String
  | [] => ""
  | [kv] => quote_keep_star kv.1 ++ "=" ++ quote_keep_star kv.2
  | kv :: rest =>
    quote_keep_star kv.1 ++ "=" ++ quote_keep_star kv.2 ++ "&" ++ urlencode rest

/-! ## The logical query (requests.py) -/

/-- `ThetaRequest` constructor arguments, as stored on the instance. -/
structure ThetaRequest where
  symbol : String
  start_date : Nat
  end_date : Nat
  asset_class : AssetClass
  data_type : DataType
  endpoint : Endpoint
  interval : Interval := .h1
  force_refresh : Bool := false
  file_granularity : FileGranularity := .monthly
deriving DecidableEq

/-- `minio_folder` as set by the `StockRequest` / `OptionRequest`
constructors: `thetadata/<asset_class>/<data_type>`. -/
def ThetaRequest.minio_folder (r : ThetaRequest) : String :=
  "thetadata/" ++ r.asset_class.value ++ "/" ++ r.data_type.value

/-- `_validate_params` of the two subclasses: stock permits EOD and
QUOTE; option permits every endpoint in the enum. -/
def ThetaRequest.valid (r : ThetaRequest) : Prop :=
  match r.asset_class with
  | .stock => r.endpoint = .eod ∨ r.endpoint = .quote
  | .option => True

/-- The condition `endpoint == EOD or endpoint == GREEKS_EOD` used both
for the interval parameter and for the per-day date parameters. -/
def Endpoint.isEodLike (e : Endpoint) : Bool :=
  e == .eod || e == .greeks_eod

/-- `_build_base_url`: `/v3/{asset_class}/{data_type}/{endpoint}`. -/
def ThetaRequest.build_base_url (r : ThetaRequest) : String :=
  THETA_BASE_URL ++ "/" ++ r.asset_class.value ++ "/" ++ r.data_type.value ++
    "/" ++ r.endpoint.value

/-- The `base_params` dict of `_create_urls_per_day`, in insertion
order. -/
def ThetaRequest.base_params (r : ThetaRequest) : List (String × String) :=
  [("symbol", r.symbol)]
    ++ (if Endpoint.isEodLike r.endpoint then []
        else [("interval", r.interval.value)])
    ++ (if r.asset_class = AssetClass.option then
          [("expiration", "*"), ("strike", "*")]
        else [])

/-- The per-day params dict: `base_params | {"date": d}` for non-EOD
endpoints, `base_params | {"start_date": d, "end_date": d}` for the two
EOD endpoints. -/
def ThetaRequest.day_params (r : ThetaRequest) (d : String) : List (String × String) :=
  r.base_params
    ++ (if Endpoint.isEodLike r.endpoint then [("start_date", d), ("end_date", d)]
        else [("date", d)])

/-- One generated URL: `f"{base_url}?{urlencode(params, ...)}"`. -/
def ThetaRequest.url_for_day (r : ThetaRequest) (d : String) : String :=
  r.build_base_url ++ "?" ++ urlencode (r.day_params d)

/-- `_create_urls_per_day`. -/
def ThetaRequest.create_urls_per_day (r : ThetaRequest) (days : List String) :
    List String :=
  days.map r.url_for_day

/-! ## Date enumeration (requests.py `_generate_date_range`) -/

def isLeapYear (y : Nat) : Bool :=
  (y % 4 == 0 && y % 100 != 0) || y % 400 == 0

def daysInMonth (y m : Nat) : Nat :=
  if m == 2 then (if isLeapYear y then 29 else 28)
  else if m == 4 || m == 6 || m == 9 || m == 11 then 30
  else 31

/-- A Gregorian calendar date, as `datetime` holds it. -/
structure PyDate where
  y : Nat
  m : Nat
  d : Nat
deriving DecidableEq

/-- `current + timedelta(days=1)`. -/
def PyDate.next (dt : PyDate) : PyDate :=
  if dt.d < daysInMonth dt.y dt.m then ⟨dt.y, dt.m, dt.d + 1⟩
  else if dt.m < 12 then ⟨dt.y, dt.m + 1, 1⟩
  else ⟨dt.y + 1, 1, 1⟩

def pad2 (n : Nat) : String :=
  if n < 10 then "0" ++ toString n else toString n

/-- `strftime("%Y%m%d")`. -/
def PyDate.toYYYYMMDD (dt : PyDate) : String :=
  toString dt.y ++ pad2 dt.m ++ pad2 dt.d

def PyDate.le (a b : PyDate) : Bool :=
  if a.y ≠ b.y then decide (a.y < b.y)
  else if a.m ≠ b.m then decide (a.m < b.m)
  else decide (a.d ≤ b.d)

/-- `strptime(str(n), "%Y%m%d")` for an integer `YYYYMMDD`. -/
def natToPyDate (n : Nat) : PyDate :=
  ⟨n / 10000, n / 100 % 100, n % 100⟩

def dateRangeAux : Nat → PyDate → PyDate → List String
  | 0, _, _ => []
  | fuel + 1, cur, e =>
    if PyDate.le cur e then cur.toYYYYMMDD :: dateRangeAux fuel cur.next e
    else []

/-- `_generate_date_range`: every calendar day from `start_date` to
`end_date` inclusive, as `YYYYMMDD` strings.  The fuel bound is sound
because the numeric `YYYYMMDD` encoding strictly increases every day. -/
def ThetaRequest.generate_date_range (r : ThetaRequest) : List String :=
  dateRangeAux (r.end_date + 1 - r.start_date)
    (natToPyDate r.start_date) (natToPyDate r.end_date)

/-! ## Grouping and the key map (requests.py `get_key_map`) -/

/-- `date[:4]`. -/
def yearOf (d : String) : String := d.take 4

/-- `date[4:6]`. -/
def monthOf (d : String) : String := (d.drop 4).take 2

/-- `_map_dates_to_yearmo`: `defaultdict(list)` grouping by
`(year, month)`, keys in first-occurrence order, dates in insertion
order within each group. -/
def mapDatesToYearmo (dates : List String) :
    List ((String × String) × List String) :=
  dates.foldl
    (fun acc date =>
      let key := (yearOf date, monthOf date)
      if acc.any (fun e => e.1 == key) then
        acc.map (fun e => if e.1 == key then (e.1, e.2 ++ [date]) else e)
      else acc ++ [(key, [date])])
    []

/-- The interval tag interpolated into the object key: `"1d"` for the
two EOD endpoints, otherwise the Python `str()` of the `Interval` enum
member — the source interpolates `self.interval` without `.value`. -/
def ThetaRequest.int_str (r : ThetaRequest) : String :=
  if Endpoint.isEodLike r.endpoint then "1d" else r.interval.pyStr

/-- `base_key` of `get_key_map`. -/
def ThetaRequest.base_key (r : ThetaRequest) : String :=
  r.minio_folder ++ "/" ++ r.endpoint.value ++ "/" ++ r.file_granularity.value ++
    "/" ++ r.int_str ++ "/" ++ r.symbol

/-- One entry of the daily-granularity dict comprehension:
`f"{base_key}/{d[0]}/{d[1]}/{d[2]}/data.parquet"` where `d` is the
**list of dates of one (year, month) group**; `none` models the
`IndexError` raised when the group holds fewer than three dates. -/
def ThetaRequest.daily_entry (r : ThetaRequest) (v : List String) :
    Option (String × List String) :=
  match v with
  | a :: b :: c :: _ =>
    some (r.base_key ++ "/" ++ a ++ "/" ++ b ++ "/" ++ c ++ "/data.parquet",
      r.create_urls_per_day v)
  | _ => none

/-- The unordered-set semantics of
`list(set(valid_dates).intersection(set(given_dates)))`: `order` is a
duplicate-free enumeration of the intersection, in an order determined
by the hash seed and not by the program. -/
def IsSetIntersectionList (order valid given : List String) : Prop :=
  order.Nodup ∧ ∀ x, x ∈ order ↔ (x ∈ valid ∧ x ∈ given)

/-- `ThetaRequest.get_key_map`, with the calendar-endpoint result
(`_get_valid_dates` is a network call) and the set-iteration order made
explicit: `final_dates` is the list the set intersection produced.
`none` models the `IndexError` of the daily branch. -/
def ThetaRequest.get_key_map (r : ThetaRequest) (final_dates : List String) :
    Option (List (String × List String)) :=
  let day_map := mapDatesToYearmo final_dates
  match r.file_granularity with
  | .monthly =>
    some (day_map.map fun e =>
      (r.base_key ++ "/" ++ e.1.1 ++ "/" ++ e.1.2 ++ "/data.parquet",
        r.create_urls_per_day e.2))
  | .daily =>
    (day_map.map (·.2)).mapM r.daily_entry

/-! ## Coordinator plan execution (client.py `request_data`) -/

/-- The pre-filter loop of `request_data`: an entry is skipped iff
`force_refresh` is false and `file_writer.file_exists(object_key)`. -/
def filesToProcess (key_map : List (String × List String))
    (file_exists : String → Bool) (force_refresh : Bool) :
    List (String × List String) :=
  key_map.filter fun kv => force_refresh || ! file_exists kv.1

/-- A Job submitted to the fetch stage, identified by its URL and the
object key of its parent FileWriteJob. -/
structure PlanJob where
  url : String
  parent_key : String
deriving DecidableEq

/-- The FileWriteJobs `request_data` creates: one per surviving key,
with `total_items = len(url_list)`. -/
def createdFileWriteJobs (fts : List (String × List String)) : List FileWriteJob :=
  fts.map fun kv => FileWriteJob.init kv.1 kv.2.length

/-- The Jobs `request_data` submits: one per URL of every surviving
key, in order. -/
def submittedJobs (fts : List (String × List String)) : List PlanJob :=
  fts.flatMap fun kv => kv.2.map fun u => ⟨u, kv.1⟩

/-! ## The client singleton (client.py) -/

/-- `MinIOConfig` dataclass (file_writer.py). -/
structure MinIOConfig where
  endpoint : String := "localhost:9000"
  access_key : String := "minioadmin"
  secret_key : String := "minioadmin123"
  raw_bucket : String := "theta-client-data"
  secure : Bool := false
deriving DecidableEq

/-- Arguments of a `ThetaClient(...)` call. -/
structure ClientParams where
  num_threads : Nat
  storage_config : MinIOConfig
  log_level : String := "INFO"
  show_progress : Bool := true
deriving DecidableEq

/-- The keyword parameter names `HTTPWorker.__init__` accepts
(http_worker.py line 18). -/
def httpWorkerInitKeywords : List String := ["num_threads"]

/-- The keyword arguments passed at the `HTTPWorker(...)` call site in
`ThetaClient.__init__` (client.py line 58). -/
def httpWorkerCallKeywords : List String := ["num_threads", "metrics"]

/-- Python keyword binding: the keywords of a call that match no
parameter name; a nonempty result raises `TypeError`. -/
def unexpectedKeywords (accepted passed : List String) : List String :=
  passed.filter fun k => ! accepted.contains k

inductive PyError
  | typeError (msg : String)
deriving DecidableEq

/-- The attributes of the (singleton) `ThetaClient` instance that
`__init__` assigns before the failing call, `none` before the first
assignment, plus the object identity and whether a stage was started. -/
structure ClientInstance where
  objId : Nat
  num_threads : Option Nat := none
  show_progress : Option Bool := none
  storage_config : Option MinIOConfig := none
  started : Bool := false
deriving DecidableEq

/-- `ThetaClient.__init__`: assigns `num_threads` and `show_progress`,
constructs the FileWriter from `storage_config`, then calls
`HTTPWorker(num_threads=..., metrics=...)`.  The mutated instance is
returned together with the error the HTTPWorker call raises when its
keywords do not bind.  No stage is started here. -/
def thetaClientInit (inst : ClientInstance) (p : ClientParams) :
    ClientInstance × Option PyError :=
  let inst := { inst with
    num_threads := some p.num_threads,
    show_progress := some p.show_progress,
    storage_config := some p.storage_config }
  if (unexpectedKeywords httpWorkerInitKeywords httpWorkerCallKeywords).isEmpty then
    (inst, none)
  else
    (inst, some (.typeError "HTTPWorker got an unexpected keyword argument"))

/-- The class-level singleton state (`ThetaClient._instance`). -/
structure ClientClassState where
  instanceSlot : Option ClientInstance := none
  nextId : Nat := 0
deriving DecidableEq

/-- `ThetaClient.__new__`: allocate on the first call, afterwards
return the stored instance. -/
def thetaClientNew (st : ClientClassState) : ClientClassState × ClientInstance :=
  match st.instanceSlot with
  | some i => (st, i)
  | none =>
    let i : ClientInstance := { objId := st.nextId }
    ({ instanceSlot := some i, nextId := st.nextId + 1 }, i)

/-- `ThetaClient(...)`: Python's type-call protocol — `__new__`, then
`__init__` on the instance it returned.  Because `__new__` returns an
instance of the class, `__init__` runs on **every** construction, also
the second one; its mutations are visible through the class slot. -/
def thetaClientConstruct (st : ClientClassState) (p : ClientParams) :
    ClientClassState × Except PyError ClientInstance :=
  let r1 := thetaClientNew st
  let r2 := thetaClientInit r1.2 p
  let st2 := { r1.1 with instanceSlot := some r2.1 }
  match r2.2 with
  | some e => (st2, .error e)
  | none => (st2, .ok r2.1)

/-! ## Finalize stage and pipeline interleavings (file_writer.py) -/

/-- Observable outcome of one `FileWriter.process` call. -/
inductive FinalizeOutcome
  | nothing
  | emit (tables : List Nat)
deriving DecidableEq

/-- `FileWriter.process` as a function of the parent `FileWriteJob`
state at the moment the call runs.  `metrics` records whether a
`MetricsCollector` was supplied; the complete-with-skips branch calls
`self._metrics.record_file_skipped()`, a method `MetricsCollector` does
not define, so with metrics present that branch raises
`AttributeError`. -/
def FileWriter.process (metrics : Bool) (parent : FileWriteJob) :
    Except String FinalizeOutcome :=
  if parent.completed = false then .ok .nothing
  else if parent.skipped_items = true then
    if metrics then .error "AttributeError: record_file_skipped"
    else .ok .nothing
  else if parent.tables.isEmpty then .ok .nothing
  else .ok (.emit parent.tables)

/-- One pipeline step touching a single FileWriteJob: the decode stage
attaches a table or records a skip, or the finalize stage processes one
of the file's Jobs. -/
inductive PipelineStep
  | decodeData (t : Nat)
  | decodeSkip
  | finalize
deriving DecidableEq

/-- Run a schedule of pipeline steps against one FileWriteJob,
collecting the outcome of every finalize call in order. -/
def runPipeline (metrics : Bool) :
    FileWriteJob → List PipelineStep →
      FileWriteJob × List (Except String FinalizeOutcome)
  | s, [] => (s, [])
  | s, .decodeData t :: rest => runPipeline metrics (s.add_table t) rest
  | s, .decodeSkip :: rest => runPipeline metrics s.mark_item_skipped rest
  | s, .finalize :: rest =>
    let r := runPipeline metrics s rest
    (r.1, FileWriter.process metrics s :: r.2)

/-- Number of uploads among the finalize outcomes. -/
def emitCount (outs : List (Except String FinalizeOutcome)) : Nat :=
  outs.countP fun o =>
    match o with
    | .ok (.emit _) => true
    | _ => false

/-! ## Concrete evaluation points -/

/-- Sum of `total_items` over a batch of FileWriteJobs. -/
def sumTotalItems (fwjs : List FileWriteJob) : Nat :=
  (fwjs.map (·.total_items)).sum

/-- A valid option query: AAPL quote, interval 15m, monthly files. -/
def optionQuoteQuery : ThetaRequest :=
  { symbol := "AAPL", start_date := 20250102, end_date := 20250102,
    asset_class := .option, data_type := .history, endpoint := .quote,
    interval := .m15, file_granularity := .monthly }

/-- A valid stock query: AAPL quote, interval 15m, monthly files,
two-day range. -/
def stockQuoteQuery : ThetaRequest :=
  { symbol := "AAPL", start_date := 20250102, end_date := 20250103,
    asset_class := .stock, data_type := .history, endpoint := .quote,
    interval := .m15, file_granularity := .monthly }

/-- A valid stock query with daily file granularity, single-day range. -/
def stockQuoteDailyQuery : ThetaRequest :=
  { symbol := "AAPL", start_date := 20250102, end_date := 20250102,
    asset_class := .stock, data_type := .history, endpoint := .quote,
    interval := .m15, file_granularity := .daily }

end ThetaClientModel

namespace ThetaClientModel

/-! ## Lemmas about the latch -/

theorem applyLatchOp_completed_items (s : FileWriteJob) (op : LatchOp) :
    (applyLatchOp s op).completed_items = s.completed_items + 1 := by
  cases op <;>
    simp [applyLatchOp, FileWriteJob.add_table, FileWriteJob.mark_item_skipped,
      FileWriteJob.increment] <;>
    split <;> rfl

theorem applyLatchOp_total_items (s : FileWriteJob) (op : LatchOp) :
    (applyLatchOp s op).total_items = s.total_items := by
  cases op <;>
    simp [applyLatchOp, FileWriteJob.add_table, FileWriteJob.mark_item_skipped,
      FileWriteJob.increment] <;>
    split <;> rfl

theorem applyLatchOp_completed (s : FileWriteJob) (op : LatchOp) :
    (applyLatchOp s op).completed =
      (if s.completed_items + 1 = s.total_items then true else s.completed) := by
  cases op <;>
    simp [applyLatchOp, FileWriteJob.add_table, FileWriteJob.mark_item_skipped,
      FileWriteJob.increment] <;>
    split <;> simp_all

theorem applyLatchOp_skipped (s : FileWriteJob) (op : LatchOp) :
    s.skipped_items = true → (applyLatchOp s op).skipped_items = true := by
  intro h
  cases op <;>
    simp [applyLatchOp, FileWriteJob.add_table, FileWriteJob.mark_item_skipped,
      FileWriteJob.increment] <;>
    split <;> simp_all

theorem applyLatchOps_completed_items (ops : List LatchOp) (s : FileWriteJob) :
    (applyLatchOps s ops).completed_items = s.completed_items + ops.length := by
  induction ops generalizing s with
  | nil => simp [applyLatchOps]
  | cons op rest ih =>
    have h := ih (applyLatchOp s op)
    simp only [applyLatchOps, List.foldl_cons] at *
    rw [h, applyLatchOp_completed_items]
    simp [List.length_cons]
    omega

theorem applyLatchOps_total_items (ops : List LatchOp) (s : FileWriteJob) :
    (applyLatchOps s ops).total_items = s.total_items := by
  induction ops generalizing s with
  | nil => simp [applyLatchOps]
  | cons op rest ih =>
    have h := ih (applyLatchOp s op)
    simp only [applyLatchOps, List.foldl_cons] at *
    rw [h, applyLatchOp_total_items]

/-- Core latch invariant, generalized over the starting state. -/
theorem applyLatchOps_completed_iff (ops : List LatchOp) (s : FileWriteJob)
    (hinv : s.completed = true ↔ s.completed_items = s.total_items)
    (hbound : s.completed_items + ops.length ≤ s.total_items ∨
      s.completed_items = s.total_items ∧ ops = []) :
    ((applyLatchOps s ops).completed = true ↔
      (applyLatchOps s ops).completed_items = (applyLatchOps s ops).total_items) := by
  induction ops generalizing s with
  | nil => simpa [applyLatchOps] using hinv
  | cons op rest ih =>
    simp only [applyLatchOps, List.foldl_cons]
    have hlen : s.completed_items + (op :: rest).length ≤ s.total_items := by
      rcases hbound with h | ⟨_, h⟩
      · exact h
      · simp at h
    have hstep : (applyLatchOp s op).completed = true ↔
        (applyLatchOp s op).completed_items = (applyLatchOp s op).total_items := by
      rw [applyLatchOp_completed, applyLatchOp_completed_items, applyLatchOp_total_items]
      split
      · simp_all
      · constructor
        · intro hc
          exact absurd (hinv.mp hc) (by simp at hlen; omega)
        · intro hc
          simp_all
    refine ih (applyLatchOp s op) hstep ?_
    left
    rw [applyLatchOp_completed_items, applyLatchOp_total_items]
    simp at hlen
    omega

/-- **C4.** For every `FileWriteJob` constructed with positive
`total_items`, if `add_table` and `mark_item_skipped` are together
invoked at most `total_items` times, then after every prefix of the
invocation sequence `completed_items ≤ total_items` and
`completed ⇔ completed_items = total_items`; moreover `completed` and
`skipped_items` are sticky under every operation. -/
theorem fileWriteJob_invariant (key : String) (total : Nat) (ops : List LatchOp)
    (htotal : 0 < total) (hlen : ops.length ≤ total) :
    (∀ p, p <+: ops →
      (applyLatchOps (FileWriteJob.init key total) p).completed_items ≤ total ∧
      ((applyLatchOps (FileWriteJob.init key total) p).completed = true ↔
        (applyLatchOps (FileWriteJob.init key total) p).completed_items = total)) ∧
    (∀ (s : FileWriteJob) (op : LatchOp),
      (s.completed = true → (applyLatchOp s op).completed = true) ∧
      (s.skipped_items = true → (applyLatchOp s op).skipped_items = true)) := by
  constructor
  · intro p hp
    have hplen : p.length ≤ total := le_trans hp.length_le hlen
    have hcount := applyLatchOps_completed_items p (FileWriteJob.init key total)
    have htot := applyLatchOps_total_items p (FileWriteJob.init key total)
    have hinit_cnt : (FileWriteJob.init key total).completed_items = 0 := rfl
    have hinit_tot : (FileWriteJob.init key total).total_items = total := rfl
    constructor
    · rw [hcount, hinit_cnt]
      omega
    · have hiff := applyLatchOps_completed_iff p (FileWriteJob.init key total)
        (by simp [FileWriteJob.init]; omega)
        (by left; rw [hinit_cnt, hinit_tot]; omega)
      rwa [htot, hinit_tot] at hiff
  · intro s op
    constructor
    · intro h
      rw [applyLatchOp_completed]
      split <;> simp_all
    · exact applyLatchOp_skipped s op

/-- Witness for C4 at a concrete run: two items, one table then one
skip, reaches the completed state. -/
theorem fileWriteJob_invariant_witness :
    (applyLatchOps (FileWriteJob.init "k" 2)
      [LatchOp.addTable 5, LatchOp.markSkipped]).completed = true :=
  ((fileWriteJob_invariant "k" 2 [LatchOp.addTable 5, LatchOp.markSkipped]
      (by decide) (by decide)).1
    [LatchOp.addTable 5, LatchOp.markSkipped] (List.prefix_refl _)).2.mpr (by decide)

/-- **C5.** `HTTPWorker.process` returns the job with the empty
sentinel (`csv_buffer = none`) exactly when the response has status 472
and its body contains the "no data" substring; any other non-success
status raises; any success status returns the job with the body
attached; every returned job is the input job (same URL). -/
theorem httpWorker_process_spec (job : HttpJob) (resp : HttpResponse) :
    ((resp.status = 472 ∧ containsSubstr NO_DATA_MESSAGE resp.body = true) →
      HTTPWorker.process job resp = .ok { job with csv_buffer := none }) ∧
    ((∃ j, HTTPWorker.process job resp = .ok j ∧ j.csv_buffer = none) ↔
      (resp.status = 472 ∧ containsSubstr NO_DATA_MESSAGE resp.body = true)) ∧
    ((isSuccessStatus resp.status = false ∧
        ¬(resp.status = 472 ∧ containsSubstr NO_DATA_MESSAGE resp.body = true)) →
      HTTPWorker.process job resp = .error (.statusError job.url resp.status)) ∧
    (isSuccessStatus resp.status = true →
      HTTPWorker.process job resp = .ok { job with csv_buffer := some resp.body }) ∧
    (∀ j, HTTPWorker.process job resp = .ok j → j.url = job.url) := by
  by_cases h1 : resp.status = 472 ∧ containsSubstr NO_DATA_MESSAGE resp.body = true
  · have h472 : resp.status = 472 := h1.1
    have hnots : isSuccessStatus resp.status = false := by
      rw [h472]; decide
    refine ⟨fun _ => by simp [HTTPWorker.process, h1], ?_, ?_, ?_, ?_⟩
    · simp [HTTPWorker.process, h1]
    · intro h; exact absurd h1 h.2
    · intro h; rw [h] at hnots; simp at hnots
    · intro j hj
      simp [HTTPWorker.process, h1] at hj
      rw [← hj]
  · by_cases h2 : isSuccessStatus resp.status = true
    · refine ⟨fun h => absurd h h1, ?_, ?_, ?_, ?_⟩
      · simp [HTTPWorker.process, h1, h2]
      · intro h; rw [h2] at h; simp at h
      · intro _; simp [HTTPWorker.process, h1, h2]
      · intro j hj
        simp [HTTPWorker.process, h1, h2] at hj
        rw [← hj]
    · refine ⟨fun h => absurd h h1, ?_, ?_, ?_, ?_⟩
      · simp [HTTPWorker.process, h1, h2]
      · intro _; simp [HTTPWorker.process, h1, h2]
      · intro h; exact absurd h h2
      · intro j hj
        simp [HTTPWorker.process, h1, h2] at hj

/-- Witness for C5 at the concrete sentinel response. -/
theorem httpWorker_process_spec_witness :
    HTTPWorker.process ⟨"u", none⟩ ⟨472, "No data found for your request"⟩ =
      .ok ⟨"u", none⟩ :=
  (httpWorker_process_spec ⟨"u", none⟩
      ⟨472, "No data found for your request"⟩).1 ⟨rfl, by decide⟩

/-- **C1 (the code deviates).** Evaluation at a concrete valid query:
for the option quote endpoint with interval 15m and monthly granularity
the object key carries the interval tag `Interval.M15` — the Python
`str()` of the enum member, `get_key_map` omits `.value` — instead of
the interval's string value `15m`; and for daily granularity the same
single-day query raises `IndexError` (the comprehension indexes
`d[0] d[1] d[2]` on the group's date list), so no key of the claimed
`<YYYY>/<MM>/<DD>` form is produced at all. -/
theorem get_key_map_key_format_bug :
    IsSetIntersectionList ["20250102"] ["20250102"]
      optionQuoteQuery.generate_date_range ∧
    optionQuoteQuery.get_key_map ["20250102"] =
      some [("thetadata/option/history/quote/monthly/Interval.M15/AAPL/2025/01/data.parquet",
        ["http://0.0.0.0:25503/v3/option/history/quote?symbol=AAPL&interval=15m&expiration=*&strike=*&date=20250102"])] ∧
    containsSubstr "/Interval.M15/"
      "thetadata/option/history/quote/monthly/Interval.M15/AAPL/2025/01/data.parquet" = true ∧
    containsSubstr "/15m/"
      "thetadata/option/history/quote/monthly/Interval.M15/AAPL/2025/01/data.parquet" = false ∧
    ({ optionQuoteQuery with file_granularity := .daily } : ThetaRequest).get_key_map
      ["20250102"] = none := by
  refine ⟨⟨by decide, ?_⟩, by decide, by decide, by decide, by decide⟩
  have hrange : optionQuoteQuery.generate_date_range = ["20250102"] := by decide
  intro x
  rw [hrange]
  simp

/-- **C2 (the code deviates).** `get_key_map` groups
`list(set(valid).intersection(set(given)))` without sorting, so a legal
set-iteration order that lists the later trading day first yields a key
whose per-day URL list is in descending date order — and that list
differs from the ascending one. -/
theorem get_key_map_unsorted_bug :
    IsSetIntersectionList ["20250103", "20250102"] ["20250102", "20250103"]
      stockQuoteQuery.generate_date_range ∧
    stockQuoteQuery.get_key_map ["20250103", "20250102"] =
      some [("thetadata/stock/history/quote/monthly/Interval.M15/AAPL/2025/01/data.parquet",
        [stockQuoteQuery.url_for_day "20250103",
          stockQuoteQuery.url_for_day "20250102"])] ∧
    [stockQuoteQuery.url_for_day "20250103", stockQuoteQuery.url_for_day "20250102"] ≠
      [stockQuoteQuery.url_for_day "20250102", stockQuoteQuery.url_for_day "20250103"] := by
  refine ⟨⟨by decide, ?_⟩, by decide, by decide⟩
  have hrange : stockQuoteQuery.generate_date_range = ["20250102", "20250103"] := by decide
  intro x
  rw [hrange]
  simp
  tauto

/-- **C9 (the code deviates for daily granularity).** A single trading
day with daily granularity: the intersection has one element, but the
daily branch of `get_key_map` raises `IndexError`, so no FileWriteJob
is created and the total-items sum is not 1.  The monthly branch on the
same dates does preserve the count. -/
theorem get_key_map_daily_count_bug :
    IsSetIntersectionList ["20250102"] ["20250102"]
      stockQuoteDailyQuery.generate_date_range ∧
    stockQuoteDailyQuery.get_key_map ["20250102"] = none ∧
    (({ stockQuoteDailyQuery with file_granularity := .monthly } : ThetaRequest).get_key_map
        ["20250102"]).map (fun km => sumTotalItems (createdFileWriteJobs km)) =
      some 1 := by
  refine ⟨⟨by decide, ?_⟩, by decide, by decide⟩
  have hrange : stockQuoteDailyQuery.generate_date_range = ["20250102"] := by decide
  intro x
  rw [hrange]
  simp

/-- **C3 (the code deviates).** `FileWriter.process` has no
emitted-once guard: under the legal interleaving in which the decode
stage finishes both items before the finalize stage dequeues either
Job, both finalize calls observe `completed = true` and the file is
uploaded twice.  Also: a finalize call on an incomplete parent emits
nothing; and on a complete parent with skips the code calls
`MetricsCollector.record_file_skipped`, a method that does not exist
(AttributeError) when metrics are enabled, and records nothing when
they are not. -/
theorem fileWriter_process_double_emit_bug :
    emitCount (runPipeline false (FileWriteJob.init "k" 2)
      [.decodeData 1, .decodeData 2, .finalize, .finalize]).2 = 2 ∧
    (runPipeline false (FileWriteJob.init "k" 2)
      [.finalize, .decodeData 1, .decodeData 2, .finalize]).2 =
      [.ok .nothing, .ok (.emit [1, 2])] ∧
    FileWriter.process true
      (applyLatchOps (FileWriteJob.init "k" 2) [.addTable 1, .markSkipped]) =
      .error "AttributeError: record_file_skipped" ∧
    FileWriter.process false
      (applyLatchOps (FileWriteJob.init "k" 2) [.addTable 1, .markSkipped]) =
      .ok .nothing := by
  refine ⟨by decide, rfl, rfl, rfl⟩

theorem filesToProcess_cons_true (kv : String × List String)
    (rest : List (String × List String)) (f : String → Bool) (fr : Bool)
    (h : (fr || ! f kv.1) = true) :
    filesToProcess (kv :: rest) f fr = kv :: filesToProcess rest f fr := by
  simp [filesToProcess, List.filter_cons, h]

theorem filesToProcess_cons_false (kv : String × List String)
    (rest : List (String × List String)) (f : String → Bool) (fr : Bool)
    (h : (fr || ! f kv.1) = false) :
    filesToProcess (kv :: rest) f fr = filesToProcess rest f fr := by
  simp [filesToProcess, List.filter_cons, h]

theorem createdFWJs_cons (kv : String × List String)
    (fts : List (String × List String)) :
    createdFileWriteJobs (kv :: fts) =
      FileWriteJob.init kv.1 kv.2.length :: createdFileWriteJobs fts := rfl

theorem submittedJobs_cons (kv : String × List String)
    (fts : List (String × List String)) :
    submittedJobs (kv :: fts) =
      (kv.2.map fun u => ⟨u, kv.1⟩) ++ submittedJobs fts := rfl

theorem mapJobs_filter_eq (us : List String) (k : String) :
    ((us.map fun u => (⟨u, k⟩ : PlanJob)).filter fun j => j.parent_key == k) =
      us.map fun u => (⟨u, k⟩ : PlanJob) := by
  induction us with
  | nil => rfl
  | cons u rest ih => simp [List.filter_cons, ih]

theorem mapJobs_filter_ne (us : List String) (k0 k : String) (h : k0 ≠ k) :
    ((us.map fun u => (⟨u, k0⟩ : PlanJob)).filter fun j => j.parent_key == k) = [] := by
  induction us with
  | nil => rfl
  | cons u rest ih => simp [List.filter_cons, beq_iff_eq, h, ih]

theorem createdFWJs_filter_nil (fts : List (String × List String)) (k : String)
    (h : ∀ kv ∈ fts, kv.1 ≠ k) :
    ((createdFileWriteJobs fts).filter fun f => f.object_key == k) = [] := by
  induction fts with
  | nil => rfl
  | cons kv rest ih =>
    have h1 : kv.1 ≠ k := h kv (List.mem_cons_self _ _)
    simp only [createdFileWriteJobs, List.map_cons, List.filter_cons,
      FileWriteJob.init, beq_iff_eq, h1, if_false]
    exact ih fun x hx => h x (List.mem_cons_of_mem _ hx)

theorem submittedJobs_filter_nil (fts : List (String × List String)) (k : String)
    (h : ∀ kv ∈ fts, kv.1 ≠ k) :
    ((submittedJobs fts).filter fun j => j.parent_key == k) = [] := by
  induction fts with
  | nil => rfl
  | cons kv rest ih =>
    have h1 : kv.1 ≠ k := h kv (List.mem_cons_self _ _)
    simp only [submittedJobs, List.flatMap_cons, List.filter_append]
    rw [mapJobs_filter_ne kv.2 kv.1 k h1]
    simp only [List.nil_append]
    exact ih fun x hx => h x (List.mem_cons_of_mem _ hx)

/-- **C7.** The pre-filter of `request_data`: an existing key (with
`force_refresh` false) gets no FileWriteJob and no submitted Jobs; every
other key of the plan gets exactly one FileWriteJob whose `total_items`
is its URL count, and exactly one Job per URL, in order. -/
theorem request_data_prefilter_spec
    (key_map : List (String × List String)) (file_exists : String → Bool)
    (force_refresh : Bool) (key : String) (urls : List String)
    (hnodup : (key_map.map Prod.fst).Nodup) (hmem : (key, urls) ∈ key_map) :
    (force_refresh = false ∧ file_exists key = true →
      ((createdFileWriteJobs (filesToProcess key_map file_exists force_refresh)).filter
        fun f => f.object_key == key) = [] ∧
      ((submittedJobs (filesToProcess key_map file_exists force_refresh)).filter
        fun j => j.parent_key == key) = []) ∧
    (¬(force_refresh = false ∧ file_exists key = true) →
      ((createdFileWriteJobs (filesToProcess key_map file_exists force_refresh)).filter
        fun f => f.object_key == key) = [FileWriteJob.init key urls.length] ∧
      ((submittedJobs (filesToProcess key_map file_exists force_refresh)).filter
        fun j => j.parent_key == key) = urls.map fun u => ⟨u, key⟩) := by
  induction key_map with
  | nil => simp at hmem
  | cons kv rest ih =>
    rcases List.mem_cons.mp hmem with heq | hrest
    · have hkv1 : kv.1 = key := by rw [← heq]
      have hkv2 : kv.2 = urls := by rw [← heq]
      have hnotin : key ∉ rest.map Prod.fst := by
        rw [← hkv1]
        exact (List.nodup_cons.mp hnodup).1
      have hrest_ne : ∀ x ∈ filesToProcess rest file_exists force_refresh, x.1 ≠ key := by
        intro x hx hxk
        exact hnotin (hxk ▸ List.mem_map_of_mem Prod.fst (List.mem_of_mem_filter hx))
      constructor
      · rintro ⟨hfr, hex⟩
        have hkeep : (force_refresh || ! file_exists kv.1) = false := by
          rw [hkv1, hfr, hex]
          rfl
        rw [filesToProcess_cons_false _ _ _ _ hkeep]
        exact ⟨createdFWJs_filter_nil _ _ hrest_ne, submittedJobs_filter_nil _ _ hrest_ne⟩
      · intro hnot
        have hkeep : (force_refresh || ! file_exists kv.1) = true := by
          rw [hkv1]
          cases hfr : force_refresh with
          | true => rfl
          | false =>
            have hne : file_exists key ≠ true := fun hh => hnot ⟨hfr, hh⟩
            have hfe : file_exists key = false := by
              revert hne
              cases file_exists key <;> simp
            simp [hfe]
        rw [filesToProcess_cons_true _ _ _ _ hkeep]
        constructor
        · have hpt : ((FileWriteJob.init kv.1 kv.2.length).object_key == key) = true := by
            simp [FileWriteJob.init, hkv1]
          rw [createdFWJs_cons, List.filter_cons, hpt]
          simp only [if_true]
          rw [createdFWJs_filter_nil _ _ hrest_ne, hkv1, hkv2]
        · rw [submittedJobs_cons, List.filter_append, hkv1, hkv2,
            mapJobs_filter_eq urls key, submittedJobs_filter_nil _ _ hrest_ne,
            List.append_nil]
    · have hkv_ne : kv.1 ≠ key := by
        intro h
        exact (List.nodup_cons.mp hnodup).1 (h ▸ List.mem_map_of_mem Prod.fst hrest)
      have ihr := ih (List.nodup_cons.mp hnodup).2 hrest
      cases hkeep : (force_refresh || ! file_exists kv.1) with
      | false =>
        rw [filesToProcess_cons_false _ _ _ _ hkeep]
        exact ihr
      | true =>
        rw [filesToProcess_cons_true _ _ _ _ hkeep]
        have hpf : ((FileWriteJob.init kv.1 kv.2.length).object_key == key) = false := by
          simp [FileWriteJob.init, hkv_ne]
        have hcr : ((createdFileWriteJobs
            (kv :: filesToProcess rest file_exists force_refresh)).filter
              fun f => f.object_key == key) =
            ((createdFileWriteJobs (filesToProcess rest file_exists force_refresh)).filter
              fun f => f.object_key == key) := by
          rw [createdFWJs_cons, List.filter_cons, hpf]
          simp
        have hsj : ((submittedJobs
            (kv :: filesToProcess rest file_exists force_refresh)).filter
              fun j => j.parent_key == key) =
            ((submittedJobs (filesToProcess rest file_exists force_refresh)).filter
              fun j => j.parent_key == key) := by
          rw [submittedJobs_cons, List.filter_append,
            mapJobs_filter_ne kv.2 kv.1 key hkv_ne, List.nil_append]
        rw [hcr, hsj]
        exact ihr

/-- Witness for C7: a two-key plan where `"a"` already exists and
`"b"` does not, `force_refresh` false. -/
theorem request_data_prefilter_spec_witness :
    ((createdFileWriteJobs (filesToProcess [("a", ["u1", "u2"]), ("b", ["u3"])]
      (fun k => k == "a") false)).filter fun f => f.object_key == "b") =
      [FileWriteJob.init "b" 1] :=
  ((request_data_prefilter_spec [("a", ["u1", "u2"]), ("b", ["u3"])]
      (fun k => k == "a") false "b" ["u3"] (by decide) (by decide)).2
    (by decide)).1

/-- **C8 counterexample.** Constructing `ThetaClient` with
`num_threads = 1` and then again with `num_threads = 2`: the same
instance object (identity 0) is returned both times, but after the
second construction its `num_threads` is 2 — the second call's
parameters are applied, not ignored, because `__init__` re-runs on the
singleton. -/
theorem thetaClient_second_construction_not_ignored :
    (((thetaClientConstruct
        (thetaClientConstruct ({} : ClientClassState) ⟨1, {}, "INFO", true⟩).1
        ⟨2, {}, "INFO", false⟩).1.instanceSlot.map fun i => i.num_threads) =
      some (some 2)) ∧
    (((thetaClientConstruct ({} : ClientClassState)
        ⟨1, {}, "INFO", true⟩).1.instanceSlot.map fun i => i.num_threads) =
      some (some 1)) ∧
    (((thetaClientConstruct
        (thetaClientConstruct ({} : ClientClassState) ⟨1, {}, "INFO", true⟩).1
        ⟨2, {}, "INFO", false⟩).1.instanceSlot.map fun i => i.objId) = some 0) ∧
    (((thetaClientConstruct ({} : ClientClassState)
        ⟨1, {}, "INFO", true⟩).1.instanceSlot.map fun i => i.objId) = some 0) :=
  ⟨rfl, rfl, rfl, rfl⟩

/-- **C8 amended.** A second construction operates on the same instance
object (identity preserved by `__new__`), but `__init__` runs again
with the second call's parameters, overwriting `num_threads`,
`show_progress` and the storage configuration; the parameters of the
second call are not ignored. -/
theorem thetaClient_singleton_reinit (st : ClientClassState) (p1 p2 : ClientParams) :
    ∃ i1 i2,
      (thetaClientConstruct st p1).1.instanceSlot = some i1 ∧
      (thetaClientConstruct (thetaClientConstruct st p1).1 p2).1.instanceSlot = some i2 ∧
      i2.objId = i1.objId ∧
      i1.num_threads = some p1.num_threads ∧
      i2.num_threads = some p2.num_threads ∧
      i2.show_progress = some p2.show_progress ∧
      i2.storage_config = some p2.storage_config := by
  cases h : st.instanceSlot with
  | none =>
    refine ⟨{ objId := st.nextId,
              num_threads := some p1.num_threads,
              show_progress := some p1.show_progress,
              storage_config := some p1.storage_config,
              started := false },
      { objId := st.nextId,
        num_threads := some p2.num_threads,
        show_progress := some p2.show_progress,
        storage_config := some p2.storage_config,
        started := false },
      ?_, ?_, rfl, rfl, rfl, rfl, rfl⟩ <;>
      simp [thetaClientConstruct, thetaClientNew, thetaClientInit, h,
        show (unexpectedKeywords httpWorkerInitKeywords httpWorkerCallKeywords).isEmpty =
          false from rfl]
  | some i =>
    refine ⟨{ i with
              num_threads := some p1.num_threads,
              show_progress := some p1.show_progress,
              storage_config := some p1.storage_config },
      { i with
        num_threads := some p2.num_threads,
        show_progress := some p2.show_progress,
        storage_config := some p2.storage_config },
      ?_, ?_, rfl, rfl, rfl, rfl, rfl⟩ <;>
      simp [thetaClientConstruct, thetaClientNew, thetaClientInit, h,
        show (unexpectedKeywords httpWorkerInitKeywords httpWorkerCallKeywords).isEmpty =
          false from rfl]

/-- **C10.** Every construction of `ThetaClient`, whatever the
arguments and prior class state, raises `TypeError` — `__init__`
passes a `metrics` keyword to `HTTPWorker`, whose `__init__` accepts
only `num_threads` — and no stage is started by construction. -/
theorem thetaClient_construct_type_error (st : ClientClassState) (p : ClientParams) :
    (thetaClientConstruct st p).2 =
      .error (.typeError "HTTPWorker got an unexpected keyword argument") ∧
    ((thetaClientConstruct st p).1.instanceSlot.map fun i => i.started) =
      some (thetaClientNew st).2.started := by
  cases h : st.instanceSlot <;>
    simp [thetaClientConstruct, thetaClientNew, thetaClientInit, h,
      show (unexpectedKeywords httpWorkerInitKeywords httpWorkerCallKeywords).isEmpty =
        false from rfl]

/-! ## Lemmas about percent-encoding and substring containment -/

theorem flatMap_pctEncode_safe (l : List Char)
    (h : ∀ c ∈ l, quoteSafe c = true) : l.flatMap pctEncodeChar = l := by
  induction l with
  | nil => rfl
  | cons c t ih =>
    rw [List.flatMap_cons, pctEncodeChar, if_pos (h c (List.mem_cons_self _ _))]
    rw [ih fun x hx => h x (List.mem_cons_of_mem _ hx)]
    rfl

theorem quote_keep_star_safe (s : String)
    (h : ∀ c ∈ s.data, quoteSafe c = true) : quote_keep_star s = s := by
  cases s with
  | mk l => exact congrArg String.mk (flatMap_pctEncode_safe l h)

theorem isPrefixOf_append_self (l r : List Char) : l.isPrefixOf (l ++ r) = true := by
  induction l with
  | nil => simp
  | cons c t ih => simp [List.isPrefixOf_cons₂, ih]

theorem isPrefixOf_append_weaken (l : List Char) :
    ∀ a b : List Char, l.isPrefixOf a = true → l.isPrefixOf (a ++ b) = true := by
  induction l with
  | nil => intro a b _; simp
  | cons c t ih =>
    intro a b h
    cases a with
    | nil => simp at h
    | cons a0 as =>
      simp only [List.cons_append, List.isPrefixOf_cons₂, Bool.and_eq_true] at h ⊢
      exact ⟨h.1, ih as b h.2⟩

theorem strContains_of_isPrefixOf (hay needle : List Char)
    (h : needle.isPrefixOf hay = true) : strContainsChars hay needle = true := by
  unfold strContainsChars
  rw [h]
  rfl

theorem strContains_cons (c : Char) (t needle : List Char)
    (h : strContainsChars t needle = true) :
    strContainsChars (c :: t) needle = true := by
  show (needle.isPrefixOf (c :: t) ||
    strContainsChars t needle) = true
  rw [h]
  simp

theorem strContains_append_right (a : List Char) (b needle : List Char)
    (h : strContainsChars b needle = true) :
    strContainsChars (a ++ b) needle = true := by
  induction a with
  | nil => simpa using h
  | cons c t ih => exact strContains_cons c (t ++ b) needle ih

theorem containsSubstr_append_right (n s t : String)
    (h : containsSubstr n t = true) : containsSubstr n (s ++ t) = true := by
  unfold containsSubstr at h ⊢
  rw [String.data_append]
  exact strContains_append_right s.data t.data n.data h

theorem containsSubstr_of_prefix (n t : String)
    (h : n.data.isPrefixOf t.data = true) : containsSubstr n t = true :=
  strContains_of_isPrefixOf t.data n.data h

theorem isPrefixOf_mem (l : List Char) :
    ∀ m : List Char, l.isPrefixOf m = true → ∀ x ∈ l, x ∈ m := by
  induction l with
  | nil => intro m _ x hx; simp at hx
  | cons c t ih =>
    intro m h x hx
    cases m with
    | nil => simp [List.isPrefixOf] at h
    | cons m0 ms =>
      simp only [List.isPrefixOf, Bool.and_eq_true, beq_iff_eq] at h
      rcases List.mem_cons.mp hx with rfl | hxt
      · rw [h.1]
        exact List.mem_cons_self _ _
      · exact List.mem_cons_of_mem _ (ih ms h.2 x hxt)

theorem strContains_subset (hay : List Char) :
    ∀ needle : List Char, strContainsChars hay needle = true →
      ∀ x ∈ needle, x ∈ hay := by
  induction hay with
  | nil =>
    intro needle h x hx
    cases needle with
    | nil => simp at hx
    | cons n0 ns => simp [strContainsChars, List.isPrefixOf] at h
  | cons c t ih =>
    intro needle h x hx
    unfold strContainsChars at h
    rcases Bool.or_eq_true_iff.mp h with hpre | hrest
    · exact isPrefixOf_mem needle (c :: t) hpre x hx
    · exact List.mem_cons_of_mem _ (ih needle hrest x hx)

theorem containsSubstr_eq_false_of (n h : String) (x : Char)
    (hx : x ∈ n.data) (hnx : x ∉ h.data) : containsSubstr n h = false := by
  cases hc : containsSubstr n h with
  | false => rfl
  | true => exact absurd (strContains_subset h.data n.data hc x hx) hnx

theorem interval_value_safe (iv : Interval) :
    ∀ c ∈ iv.value.data, quoteSafe c = true := by
  cases iv <;> decide

theorem urlencode_cons₂ (kv1 kv2 : String × String)
    (rest : List (String × String)) :
    urlencode (kv1 :: kv2 :: rest) =
      quote_keep_star kv1.1 ++ "=" ++ quote_keep_star kv1.2 ++ "&" ++
        urlencode (kv2 :: rest) := rfl

theorem urlencode_no_pct (params : List (String × String))
    (h : ∀ kv ∈ params, (∀ c ∈ kv.1.data, quoteSafe c = true) ∧
      (∀ c ∈ kv.2.data, quoteSafe c = true)) :
    '%' ∉ (urlencode params).data := by
  induction params with
  | nil => simp [urlencode]
  | cons kv rest ih =>
    have hk := (h kv (List.mem_cons_self _ _)).1
    have hv := (h kv (List.mem_cons_self _ _)).2
    have hknot : '%' ∉ (quote_keep_star kv.1).data := by
      rw [quote_keep_star_safe _ hk]
      intro hm
      exact absurd (hk '%' hm) (by decide)
    have hvnot : '%' ∉ (quote_keep_star kv.2).data := by
      rw [quote_keep_star_safe _ hv]
      intro hm
      exact absurd (hv '%' hm) (by decide)
    cases rest with
    | nil =>
      show '%' ∉ (quote_keep_star kv.1 ++ "=" ++ quote_keep_star kv.2).data
      rw [String.data_append, String.data_append]
      intro hm
      rcases List.mem_append.mp hm with hm1 | hm2
      · rcases List.mem_append.mp hm1 with ha | hb
        · exact hknot ha
        · simp at hb
      · exact hvnot hm2
    | cons kv2 rest2 =>
      rw [urlencode_cons₂]
      have ih2 := ih fun x hx => h x (List.mem_cons_of_mem _ hx)
      rw [String.data_append, String.data_append, String.data_append,
        String.data_append]
      intro hm
      rcases List.mem_append.mp hm with hm1 | hm2
      · rcases List.mem_append.mp hm1 with hm3 | hm4
        · rcases List.mem_append.mp hm3 with hm5 | hm6
          · rcases List.mem_append.mp hm5 with ha | hb
            · exact hknot ha
            · simp at hb
          · exact hvnot hm6
        · simp at hm4
      · exact ih2 hm2

theorem literal_safe (s : String) (h : s.data.all quoteSafe = true) :
    ∀ c ∈ s.data, quoteSafe c = true := fun c hc => List.all_eq_true.mp h c hc

theorem asset_value_no_pct (ac : AssetClass) : '%' ∉ ac.value.data := by
  cases ac <;> decide

theorem dtype_value_no_pct (dt : DataType) : '%' ∉ dt.value.data := by
  cases dt <;> decide

theorem endpoint_value_no_pct (ep : Endpoint) : '%' ∉ ep.value.data := by
  cases ep <;> decide

theorem build_base_url_no_pct (r : ThetaRequest) :
    '%' ∉ r.build_base_url.data := by
  unfold ThetaRequest.build_base_url
  simp only [String.data_append, List.mem_append]
  intro hm
  rcases hm with ((((((h1 | h2) | h3) | h4) | h5) | h6) | h7)
  · exact absurd h1 (by decide)
  · exact absurd h2 (by decide)
  · exact asset_value_no_pct r.asset_class h3
  · exact absurd h4 (by decide)
  · exact dtype_value_no_pct r.data_type h5
  · exact absurd h6 (by decide)
  · exact endpoint_value_no_pct r.endpoint h7

theorem day_params_safe (r : ThetaRequest) (d : String)
    (hsym : ∀ c ∈ r.symbol.data, quoteSafe c = true)
    (hd : ∀ c ∈ d.data, quoteSafe c = true) :
    ∀ kv ∈ r.day_params d, (∀ c ∈ kv.1.data, quoteSafe c = true) ∧
      (∀ c ∈ kv.2.data, quoteSafe c = true) := by
  intro kv hkv
  cases heod : Endpoint.isEodLike r.endpoint with
  | false =>
    cases hac : r.asset_class with
    | stock =>
      simp [ThetaRequest.day_params, ThetaRequest.base_params, heod, hac] at hkv
      rcases hkv with rfl | rfl | rfl
      · exact ⟨literal_safe "symbol" (by decide), hsym⟩
      · exact ⟨literal_safe "interval" (by decide), interval_value_safe r.interval⟩
      · exact ⟨literal_safe "date" (by decide), hd⟩
    | option =>
      simp [ThetaRequest.day_params, ThetaRequest.base_params, heod, hac] at hkv
      rcases hkv with rfl | rfl | rfl | rfl | rfl
      · exact ⟨literal_safe "symbol" (by decide), hsym⟩
      · exact ⟨literal_safe "interval" (by decide), interval_value_safe r.interval⟩
      · exact ⟨literal_safe "expiration" (by decide), literal_safe "*" (by decide)⟩
      · exact ⟨literal_safe "strike" (by decide), literal_safe "*" (by decide)⟩
      · exact ⟨literal_safe "date" (by decide), hd⟩
  | true =>
    cases hac : r.asset_class with
    | stock =>
      simp [ThetaRequest.day_params, ThetaRequest.base_params, heod, hac] at hkv
      rcases hkv with rfl | rfl | rfl
      · exact ⟨literal_safe "symbol" (by decide), hsym⟩
      · exact ⟨literal_safe "start_date" (by decide), hd⟩
      · exact ⟨literal_safe "end_date" (by decide), hd⟩
    | option =>
      simp [ThetaRequest.day_params, ThetaRequest.base_params, heod, hac] at hkv
      rcases hkv with rfl | rfl | rfl | rfl | rfl
      · exact ⟨literal_safe "symbol" (by decide), hsym⟩
      · exact ⟨literal_safe "expiration" (by decide), literal_safe "*" (by decide)⟩
      · exact ⟨literal_safe "strike" (by decide), literal_safe "*" (by decide)⟩
      · exact ⟨literal_safe "start_date" (by decide), hd⟩
      · exact ⟨literal_safe "end_date" (by decide), hd⟩

/-- **C6.** Query-string parameters of every generated URL: non-EOD
endpoints carry `interval` and `date` and never `start_date`/`end_date`;
the two EOD endpoints carry `start_date = end_date = d` and never
`interval`; option queries carry the literal substrings `expiration=*`
and `strike=*`; stock queries carry neither parameter; and no generated
URL contains `%2A` (the `*` wildcard is never percent-encoded). -/
theorem create_urls_per_day_params_spec (r : ThetaRequest) (d : String)
    (hsym : ∀ c ∈ r.symbol.data, quoteSafe c = true)
    (hd : ∀ c ∈ d.data, quoteSafe c = true) :
    (Endpoint.isEodLike r.endpoint = false →
      ("interval", r.interval.value) ∈ r.day_params d ∧
      ("date", d) ∈ r.day_params d ∧
      "start_date" ∉ (r.day_params d).map Prod.fst ∧
      "end_date" ∉ (r.day_params d).map Prod.fst) ∧
    (Endpoint.isEodLike r.endpoint = true →
      ("start_date", d) ∈ r.day_params d ∧
      ("end_date", d) ∈ r.day_params d ∧
      "interval" ∉ (r.day_params d).map Prod.fst) ∧
    (r.asset_class = AssetClass.option →
      containsSubstr "expiration=*" (r.url_for_day d) = true ∧
      containsSubstr "strike=*" (r.url_for_day d) = true) ∧
    (r.asset_class = AssetClass.stock →
      "expiration" ∉ (r.day_params d).map Prod.fst ∧
      "strike" ∉ (r.day_params d).map Prod.fst) ∧
    containsSubstr "%2A" (r.url_for_day d) = false := by
  refine ⟨?_, ?_, ?_, ?_, ?_⟩
  · intro heod
    cases hac : r.asset_class <;>
      simp [ThetaRequest.day_params, ThetaRequest.base_params, heod, hac]
  · intro heod
    cases hac : r.asset_class <;>
      simp [ThetaRequest.day_params, ThetaRequest.base_params, heod, hac]
  · intro hac
    cases heod : Endpoint.isEodLike r.endpoint with
    | false =>
      have hshape : r.day_params d =
          ("symbol", r.symbol) :: ("interval", r.interval.value) ::
            ("expiration", "*") :: ("strike", "*") :: [("date", d)] := by
        simp [ThetaRequest.day_params, ThetaRequest.base_params, heod, hac]
      constructor
      · unfold ThetaRequest.url_for_day
        apply containsSubstr_append_right
        rw [hshape, urlencode_cons₂]
        apply containsSubstr_append_right
        rw [urlencode_cons₂]
        apply containsSubstr_append_right
        apply containsSubstr_of_prefix
        rw [urlencode_cons₂, String.data_append]
        apply isPrefixOf_append_weaken
        decide
      · unfold ThetaRequest.url_for_day
        apply containsSubstr_append_right
        rw [hshape, urlencode_cons₂]
        apply containsSubstr_append_right
        rw [urlencode_cons₂]
        apply containsSubstr_append_right
        rw [urlencode_cons₂]
        apply containsSubstr_append_right
        apply containsSubstr_of_prefix
        rw [urlencode_cons₂, String.data_append]
        apply isPrefixOf_append_weaken
        decide
    | true =>
      have hshape : r.day_params d =
          ("symbol", r.symbol) :: ("expiration", "*") :: ("strike", "*") ::
            ("start_date", d) :: [("end_date", d)] := by
        simp [ThetaRequest.day_params, ThetaRequest.base_params, heod, hac]
      constructor
      · unfold ThetaRequest.url_for_day
        apply containsSubstr_append_right
        rw [hshape, urlencode_cons₂]
        apply containsSubstr_append_right
        apply containsSubstr_of_prefix
        rw [urlencode_cons₂, String.data_append]
        apply isPrefixOf_append_weaken
        decide
      · unfold ThetaRequest.url_for_day
        apply containsSubstr_append_right
        rw [hshape, urlencode_cons₂]
        apply containsSubstr_append_right
        rw [urlencode_cons₂]
        apply containsSubstr_append_right
        apply containsSubstr_of_prefix
        rw [urlencode_cons₂, String.data_append]
        apply isPrefixOf_append_weaken
        decide
  · intro hac
    cases heod : Endpoint.isEodLike r.endpoint <;>
      simp [ThetaRequest.day_params, ThetaRequest.base_params, heod, hac]
  · unfold ThetaRequest.url_for_day
    refine containsSubstr_eq_false_of _ _ '%' (by decide) ?_
    rw [String.data_append, String.data_append]
    intro hm
    rcases List.mem_append.mp hm with hm1 | h3
    · rcases List.mem_append.mp hm1 with h1 | h2
      · exact build_base_url_no_pct r h1
      · exact absurd h2 (by decide)
    · exact urlencode_no_pct _ (day_params_safe r d hsym hd) h3

/-- Witness for C6 at the concrete option query: the URL for 20250102
contains the literal `expiration=*` and no `%2A`. -/
theorem create_urls_per_day_params_spec_witness :
    containsSubstr "expiration=*" (optionQuoteQuery.url_for_day "20250102") = true ∧
    containsSubstr "%2A" (optionQuoteQuery.url_for_day "20250102") = false :=
  ⟨((create_urls_per_day_params_spec optionQuoteQuery "20250102"
      (by decide) (by decide)).2.2.1 rfl).1,
    (create_urls_per_day_params_spec optionQuoteQuery "20250102"
      (by decide) (by decide)).2.2.2.2⟩

end ThetaClientModel
